import Mathlib

/-!
Verification of the PushUp extension's core logic against its design
specification.  The TypeScript sources are shallowly embedded as Lean
definitions: pure string manipulation becomes functions on `String` /
`List Char`; the mutable remote-repository client becomes explicit state
passing over an abstract transport oracle; thrown JavaScript exceptions
become `Except` values.
-/

namespace PushUp

/-! ## String helpers (semantics of the JavaScript primitives used) -/

/-- JavaScript `String.prototype.includes` on character lists:
`needle` occurs contiguously inside `hay`. -/
def listIncludes (needle hay : List Char) : Bool :=
  match hay with
  | [] => needle.isEmpty
  | _ :: t => needle.isPrefixOf hay || listIncludes needle t

/-- JavaScript `str.includes(needle)`. -/
def strIncludes (s needle : String) : Bool :=
  listIncludes needle.toList s.toList

/-- JavaScript `str.trim()`: strip leading and trailing whitespace
(implemented on the character list so that it evaluates by kernel
reduction). -/
def jsTrim (s : String) : String :=
  ⟨((s.toList.dropWhile Char.isWhitespace).reverse.dropWhile
      Char.isWhitespace).reverse⟩

/-- Character class `[a-z0-9]` (the slug alphabet). -/
def isSlugChar (c : Char) : Bool :=
  ('a' ≤ c && c ≤ 'z') || ('0' ≤ c && c ≤ '9')

/-- Character class `[a-z0-9-_]` (the characters `sanitizeFileName` keeps). -/
def isKeepChar (c : Char) : Bool :=
  isSlugChar c || c = '-' || c = '_'

/-- Helper for `replaceRuns`: `inRun` records whether the previous character
belonged to a run of `bad` characters (in which case the run's single `'-'`
has already been emitted). -/
def replaceRunsAux (bad : Char → Bool) : Bool → List Char → List Char
  | _, [] => []
  | inRun, c :: cs =>
    if bad c then
      if inRun then replaceRunsAux bad true cs
      else '-' :: replaceRunsAux bad true cs
    else c :: replaceRunsAux bad false cs

/-- Regex replacement of every maximal run of characters satisfying `bad`
with a single `'-'` (the semantics of the global replacement of `BAD+`
by `'-'`): the first character of each run emits `'-'`, the rest of the
run is skipped. -/
def replaceRuns (bad : Char → Bool) (l : List Char) : List Char :=
  replaceRunsAux bad false l

/-- Drop every leading and trailing `'-'` (the semantics of the global
replacement of `^-+` and `-+$` by the empty string). -/
def trimHyphens (l : List Char) : List Char :=
  ((l.dropWhile (· = '-')).reverse.dropWhile (· = '-')).reverse

/-- Drop one leading `'-'` if present. -/
def dropOneHyphen : List Char → List Char
  | '-' :: rest => rest
  | other => other

/-- Drop at most one leading and at most one trailing `'-'` (the semantics
of the global replacement of `^-` and `-$` — note: no `+` — by the empty
string). -/
def trimOneHyphen (l : List Char) : List Char :=
  (dropOneHyphen ((dropOneHyphen l).reverse)).reverse

/-- `content.ts` (`SubmissionDetector.extractLeetCodeProblemId` and the
Codeforces/CodeChef title fallbacks): the slug applied to extracted titles —
lower-case, then globally replace `[^a-z0-9]+` by `'-'`, then strip `^-+`
and `-+$`. -/
def slugifyTitle (title : String) : String :=
  ⟨trimHyphens (replaceRuns (fun c => !isSlugChar c) (title.toList.map Char.toLower))⟩

/-- `github.ts` `GitHubService.sanitizeFileName`: lower-case, then globally
replace each single character in `[^a-z0-9-_]` (no `+` in that regex) by
`'-'`, then collapse runs `-+` to a single `'-'`, then strip `^-` and `-$`
(one hyphen at each end). -/
def sanitizeFileName (name : String) : String :=
  let l1 := name.toList.map Char.toLower
  let l2 := l1.map (fun c => if isKeepChar c then c else '-')
  let l3 := replaceRuns (fun c => c = '-') l2
  ⟨trimOneHyphen l3⟩

/-- The slugification rule exactly as the specification words it: lower-case,
replace every run of characters outside `[a-z0-9]` with a single hyphen, trim
leading/trailing hyphens. -/
def specSlugRule (name : String) : String :=
  ⟨trimHyphens (replaceRuns (fun c => !isSlugChar c) (name.toList.map Char.toLower))⟩

/-- Character class `[^a-z0-9_]`: the characters the amended slugification
rule hyphenates (underscore, unlike in the specification's rule, is kept). -/
def badFile (c : Char) : Bool := !(isSlugChar c || c = '_')

/-- The amended slugification rule for file-name stems, in the same style as
the specification's wording: lower-case, replace every run of characters
outside `[a-z0-9_]` (underscore now kept) with a single hyphen, trim
leading/trailing hyphens. -/
def amendedSlugRule (name : String) : String :=
  ⟨trimHyphens (replaceRuns badFile (name.toList.map Char.toLower))⟩

/-- Adjacent characters are not both hyphens (no `--` infix). -/
def NoDH (a b : Char) : Prop := ¬(a = '-' ∧ b = '-')

/-! ## Streak state (`streak.ts`)

Calendar dates (the `YYYY-MM-DD` strings the code compares) are embedded as
day numbers: `daysFromCivil` maps a proleptic-Gregorian date to the count of
days since 1970-01-01, so two date strings are equal iff their day numbers
are, and "yesterday" is the predecessor day number. -/

/-- Days since 1970-01-01 of the Gregorian date `y-m-d`
(Howard Hinnant's `days_from_civil` algorithm). -/
def daysFromCivil (y : Int) (m d : Int) : Int :=
  let y' := if m ≤ 2 then y - 1 else y
  let era := (if 0 ≤ y' then y' else y' - 399) / 400
  let yoe := y' - era * 400
  let mp := (m + 9) % 12
  let doy := (153 * mp + 2) / 5 + d - 1
  let doe := yoe * 365 + yoe / 4 - yoe / 100 + doy
  era * 146097 + doe - 719468

/-- The persistent streak fields (`streak`, `lastPushDate`, `longestStreak`
in `chrome.storage.local`).  `lastPushDate` is `none` when the stored string
is empty/absent (falsy in the code); missing numeric fields are read as `0`
by the code's `|| 0` fallbacks, so they are plain `Nat`s here. -/
structure StreakData where
  streak : Nat
  lastPushDate : Option Int
  longestStreak : Nat
deriving DecidableEq, Repr

/-- `streak.ts` `updateStreak`, as the transition it performs on the stored
streak fields when a contribution is recorded on day `today`.  The code's
`yesterday` is the real-clock previous day, i.e. `today - 1`. -/
def updateStreak (data : StreakData) (today : Int) : StreakData :=
  if data.lastPushDate = some today then data
  else
    let newStreak : Nat :=
      match data.lastPushDate with
      | some last => if last = today - 1 then data.streak + 1 else 1
      | none => 1
    { streak := newStreak
      lastPushDate := some today
      longestStreak := max newStreak data.longestStreak }

/-- The streak transition exactly as claim C3 words it: same-day repeat is a
no-op; a last contribution exactly one day earlier increments
`currentStreak`; any other case (gap or first-ever) resets it to 1; in every
non-same-day case `longestStreak` becomes `max longestStreak currentStreak`
(with the new current streak) and `lastContributionDate` becomes the event
date. -/
def updateStreakSpec (data : StreakData) (today : Int) : StreakData :=
  if data.lastPushDate = some today then data
  else
    let current : Nat :=
      if data.lastPushDate = some (today - 1) then data.streak + 1 else 1
    { streak := current
      lastPushDate := some today
      longestStreak := max data.longestStreak current }

/-- The streak fields as first stored (nothing in storage: zeros and an
empty date). -/
def initialStreak : StreakData := ⟨0, none, 0⟩

/-! ## Daily submission buckets (`background.ts` `updateDailySubmissions`) -/

/-- Difficulty of a submission, when the extractor provides one. -/
inductive Difficulty
  | easy
  | medium
  | hard
deriving DecidableEq, Repr

/-- The nested `problems: {easy, medium, hard}` counters of a bucket. -/
structure ProblemCounts where
  easy : Nat
  medium : Nat
  hard : Nat
deriving DecidableEq, Repr

/-- One calendar day's rollup (`DailySubmissionData` in `background.ts`).
The ISO `date` string is embedded as a day number (see `daysFromCivil`). -/
structure DailySubmissionData where
  date : Int
  submissions : Nat
  problems : ProblemCounts
deriving DecidableEq, Repr

/-- `todayData.submissions++` followed by the optional difficulty counter
increment. -/
def bumpBucket (b : DailySubmissionData) (diff : Option Difficulty) :
    DailySubmissionData :=
  { b with
    submissions := b.submissions + 1
    problems :=
      match diff with
      | some .easy => { b.problems with easy := b.problems.easy + 1 }
      | some .medium => { b.problems with medium := b.problems.medium + 1 }
      | some .hard => { b.problems with hard := b.problems.hard + 1 }
      | none => b.problems }

/-- Increment the first bucket whose date is `today` (the semantics of
`dailySubmissions.find(d => d.date === today)` followed by in-place
mutation of the found object). -/
def bumpFirstToday (today : Int) (diff : Option Difficulty) :
    List DailySubmissionData → List DailySubmissionData
  | [] => []
  | b :: rest =>
    if b.date = today then bumpBucket b diff :: rest
    else b :: bumpFirstToday today diff rest

/-- `background.ts` `updateDailySubmissions`, restricted to the
`dailySubmissions` array it maintains: look up today's bucket, pushing a
fresh zero bucket if absent; increment its submission count and (when the
record carries a difficulty) the matching counter; then keep only buckets
whose date is within the trailing 365-day window of `today`
(`new Date(d.date) >= oneYearAgo`, dates compared at day granularity). -/
def updateDailySubmissions (subs : List DailySubmissionData)
    (diff : Option Difficulty) (today : Int) : List DailySubmissionData :=
  let withToday :=
    if subs.any (fun b => b.date = today) then subs
    else subs ++ [⟨today, 0, ⟨0, 0, 0⟩⟩]
  let bumped := bumpFirstToday today diff withToday
  bumped.filter (fun b => today - 365 ≤ b.date)

/-! ## Achievements (`streak.ts` `checkAchievements`) -/

/-- A static achievement definition: id, display fields and the streak
threshold predicate. -/
structure Achievement where
  id : String
  title : String
  message : String
  emoji : String
  condition : Nat → Bool

/-- The static achievement table of `streak.ts`. -/
def achievements : List Achievement :=
  [⟨"streak-7", "1 Week Streak", "🔥 You've been coding for 7 days straight!",
      "🔥", fun streak => 7 ≤ streak⟩,
    ⟨"streak-30", "1 Month Streak", "💎 Amazing! A whole month of continuous coding!",
      "💎", fun streak => 30 ≤ streak⟩,
    ⟨"streak-50", "50 Day Streak", "🏆 Incredible! You've reached the 50-day milestone!",
      "🏆", fun streak => 50 ≤ streak⟩,
    ⟨"streak-100", "Century Streak", "🌟 Legendary! 100 days of consistent coding!",
      "🌟", fun streak => 100 ≤ streak⟩]

/-- `streak.ts` `checkAchievements`: walk the static table; every achievement
whose id is not yet in the unlocked set and whose condition holds on the
current streak is appended to the newly-unlocked list and added to the set.
Returns (newly unlocked achievements, updated unlocked id set). -/
def checkAchievements (unlocked : List String) (currentStreak : Nat) :
    List Achievement × List String :=
  achievements.foldl
    (fun acc a =>
      if !acc.2.contains a.id && a.condition currentStreak then
        (acc.1 ++ [a], acc.2 ++ [a.id])
      else acc)
    ([], unlocked)

/-! ## Remote repository client (`github.ts`)

The `GitHubService` methods are embedded as explicit state-passing
functions over an abstract transport oracle (`OctoFiles` / `OctoRepos`):
each octokit call either returns data or raises a transport error carrying
an optional HTTP status.  A thrown JavaScript value is either a
`GitHubError` or such a raw transport error (`JsErr`). -/

/-- JavaScript `s.toLowerCase()` (per-character, as for the ASCII inputs
the code compares against). -/
def lowerStr (s : String) : String := ⟨s.toList.map Char.toLower⟩

/-- The `GitHubError` class: a message plus a string error code. -/
structure GitHubError where
  message : String
  code : String
deriving DecidableEq, Repr

/-- A raw transport (octokit) error: its `status` (also exposed as
`response.status`) when a response was received, and its message (the code
prefers `response.data.message` when present; `msg` is the resulting
message either way). -/
structure TErr where
  status : Option Nat
  msg : String
deriving DecidableEq, Repr

/-- A thrown JavaScript value as the client can observe it: an
already-normalized `GitHubError`, or a raw transport error. -/
inductive JsErr
  | gh (e : GitHubError)
  | raw (t : TErr)
deriving DecidableEq, Repr

/-- `GitHubService.handleGitHubError`: pass `GitHubError`s through
unchanged; map a transport error's response status to one of the four HTTP
codes, anything else to `UNKNOWN_ERROR`. -/
def handleGitHubError : JsErr → GitHubError
  | .gh e => e
  | .raw t =>
    let code :=
      if t.status = some 401 then "UNAUTHORIZED"
      else if t.status = some 403 then "FORBIDDEN"
      else if t.status = some 404 then "NOT_FOUND"
      else if t.status = some 422 then "VALIDATION_FAILED"
      else "UNKNOWN_ERROR"
    ⟨t.msg, code⟩

/-- The parts of an octokit repository response the code reads:
`data.owner.login` (absent models a falsy `data.owner`), `data.name`,
`data.html_url`, `data.permissions?.push`. -/
structure RepoData where
  ownerLogin : Option String
  name : String
  htmlUrl : String
  permissionsPush : Option Bool

/-- Transport oracle for the file-content endpoints.
`getContent s owner repo path` returns the `sha` of the file at `path`
(`none` models a response without a `sha` field); `putContent s owner repo
path message content sha?` is `createOrUpdateFileContents`. -/
structure OctoFiles (σ : Type) where
  getContent : σ → String → String → String → Except TErr (Option Nat) × σ
  putContent : σ → String → String → String → String → String → Option Nat →
    Except TErr Unit × σ

/-- Transport oracle for the repository endpoints.
`createRepo s name description` is `createForAuthenticatedUser`;
`getRepo s owner repo` is `repos.get`. -/
structure OctoRepos (σ : Type) where
  createRepo : σ → String → String → Except TErr RepoData × σ
  getRepo : σ → String → String → Except TErr RepoData × σ

/-- The mutable service identity (`this.owner`, `this.repo`). -/
structure Svc where
  owner : String
  repo : String
deriving DecidableEq, Repr

/-- `GitHubService.getFileExtension`: the static language → extension
table, `txt` for unknown languages. -/
def getFileExtension (language : String) : String :=
  let l := lowerStr language
  if l = "javascript" then "js"
  else if l = "typescript" then "ts"
  else if l = "python" then "py"
  else if l = "java" then "java"
  else if l = "cpp" then "cpp"
  else if l = "c++" then "cpp"
  else if l = "ruby" then "rb"
  else if l = "golang" then "go"
  else if l = "rust" then "rs"
  else "txt"

/-- `GitHubService.getFilePath`: the deterministic path
`platform/sanitizedProblemId.ext`, or a thrown `INVALID_PLATFORM`
`GitHubError` for any platform outside the three supported ones. -/
def getFilePath (platform problemId language : String) :
    Except GitHubError String :=
  let ext := getFileExtension language
  let sanitizedProblemId := sanitizeFileName problemId
  if lowerStr platform = "leetcode" then
    .ok ("leetcode/" ++ sanitizedProblemId ++ "." ++ ext)
  else if lowerStr platform = "codeforces" then
    .ok ("codeforces/" ++ sanitizedProblemId ++ "." ++ ext)
  else if lowerStr platform = "codechef" then
    .ok ("codechef/" ++ sanitizedProblemId ++ "." ++ ext)
  else .error ⟨"Unsupported platform: " ++ platform, "INVALID_PLATFORM"⟩

/-- `GitHubService.generateCommitMessage`. -/
def generateCommitMessage (platform problemId : String) (isUpdate : Bool) :
    String :=
  (if isUpdate then "Update" else "Add") ++ " " ++ platform ++
    " solution: " ++ problemId

/-- `GitHubService.checkFileExists`: a successful `getContent` means the
file exists; a 404 means it does not; any other transport error is
normalized and rethrown. -/
def checkFileExists {σ : Type} (okf : OctoFiles σ) (svc : Svc) (path : String)
    (s : σ) : Except JsErr Bool × σ :=
  match okf.getContent s svc.owner svc.repo path with
  | (.ok _, s2) => (.ok true, s2)
  | (.error t, s2) =>
    if t.status = some 404 then (.ok false, s2)
    else (.error (.gh (handleGitHubError (.raw t))), s2)

/-- `GitHubService.createFile`: `createOrUpdateFileContents` without a
`sha`; transport errors are normalized and rethrown. -/
def createFile {σ : Type} (okf : OctoFiles σ) (svc : Svc)
    (path content message : String) (s : σ) : Except JsErr Unit × σ :=
  match okf.putContent s svc.owner svc.repo path message content none with
  | (.ok _, s2) => (.ok (), s2)
  | (.error t, s2) => (.error (.gh (handleGitHubError (.raw t))), s2)

/-- `GitHubService.updateFile`: fetch the existing content, require its
`sha` (`INVALID_RESPONSE` otherwise), and write the new content carrying
that `sha`; all errors are normalized by the method's own catch. -/
def updateFile {σ : Type} (okf : OctoFiles σ) (svc : Svc)
    (path content message : String) (s : σ) : Except JsErr Unit × σ :=
  match okf.getContent s svc.owner svc.repo path with
  | (.error t, s2) => (.error (.gh (handleGitHubError (.raw t))), s2)
  | (.ok none, s2) =>
    (.error (.gh (handleGitHubError
      (.gh ⟨"Invalid file data received from GitHub", "INVALID_RESPONSE"⟩))), s2)
  | (.ok (some sha), s2) =>
    match okf.putContent s2 svc.owner svc.repo path message content (some sha) with
    | (.ok _, s3) => (.ok (), s3)
    | (.error t, s3) => (.error (.gh (handleGitHubError (.raw t))), s3)

/-- `GitHubService.saveSolution`: compute the deterministic path (throwing
`INVALID_PLATFORM` before any transport call), check existence, then update
or create accordingly; errors from that final step are normalized. -/
def saveSolution {σ : Type} (okf : OctoFiles σ) (svc : Svc)
    (platform problemId code language : String) (s : σ) :
    Except JsErr Unit × σ :=
  match getFilePath platform problemId language with
  | .error e => (.error (.gh e), s)
  | .ok path =>
    match checkFileExists okf svc path s with
    | (.error e, s2) => (.error e, s2)
    | (.ok fileExists, s2) =>
      let message := generateCommitMessage platform problemId fileExists
      match (if fileExists then updateFile okf svc path code message s2
             else createFile okf svc path code message s2) with
      | (.ok _, s3) => (.ok (), s3)
      | (.error e, s3) => (.error (.gh (handleGitHubError e)), s3)

/-- `GitHubService.verifyRepoAccess`: fetch the repository and report
`data.permissions?.push || false`; transport errors are normalized. -/
def verifyRepoAccess {σ : Type} (okr : OctoRepos σ) (svc : Svc) (s : σ) :
    Except JsErr Bool × σ :=
  match okr.getRepo s svc.owner svc.repo with
  | (.ok data, s2) => (.ok (data.permissionsPush.getD false), s2)
  | (.error t, s2) => (.error (.gh (handleGitHubError (.raw t))), s2)

/-- `GitHubService.createNewRepo` (the private-repo setup flow): create the
repository (422 → `REPO_EXISTS`), require `data.owner`
(`REPO_CREATE_ERROR` otherwise), adopt the returned owner/name, and verify
access; errors already normalized by `verifyRepoAccess` never carry a
status, so the method's 422 branch cannot fire for them. -/
def createNewRepo {σ : Type} (okr : OctoRepos σ) (svc : Svc) (name : String)
    (s : σ) : Except JsErr Unit × Svc × σ :=
  match okr.createRepo s name "My coding solutions repository managed by PushUp" with
  | (.error t, s2) =>
    if t.status = some 422 then
      (.error (.gh ⟨"Repository already exists", "REPO_EXISTS"⟩), svc, s2)
    else (.error (.gh (handleGitHubError (.raw t))), svc, s2)
  | (.ok data, s2) =>
    match data.ownerLogin with
    | none =>
      (.error (.gh (handleGitHubError
        (.gh ⟨"Failed to create repository", "REPO_CREATE_ERROR"⟩))), svc, s2)
    | some login =>
      let svc2 : Svc := ⟨login, data.name⟩
      match verifyRepoAccess okr svc2 s2 with
      | (.ok _, s3) => (.ok (), svc2, s3)
      | (.error e, s3) => (.error (.gh (handleGitHubError e)), svc2, s3)

/-- One folder of `GitHubService.initializeFolders` (the `.gitkeep`
variant): create `folder/.gitkeep` only if missing. -/
def initFolderKeep {σ : Type} (okf : OctoFiles σ) (svc : Svc)
    (folder : String) (s : σ) : Except JsErr Unit × σ :=
  match checkFileExists okf svc (folder ++ "/.gitkeep") s with
  | (.error e, s2) => (.error e, s2)
  | (.ok true, s2) => (.ok (), s2)
  | (.ok false, s2) =>
    createFile okf svc (folder ++ "/.gitkeep") ""
      ("Initialize " ++ folder ++ " folder") s2

/-- Sequencing of `initFolderKeep` over the platform folder list. -/
def initFoldersKeepList {σ : Type} (okf : OctoFiles σ) (svc : Svc) :
    List String → σ → Except JsErr Unit × σ
  | [], s => (.ok (), s)
  | f :: rest, s =>
    match initFolderKeep okf svc f s with
    | (.ok _, s2) => initFoldersKeepList okf svc rest s2
    | (.error e, s2) => (.error e, s2)

/-- `GitHubService.initializeFolders` (the `.gitkeep` variant). -/
def initializeFoldersKeep {σ : Type} (okf : OctoFiles σ) (svc : Svc)
    (s : σ) : Except JsErr Unit × σ :=
  initFoldersKeepList okf svc ["leetcode", "codeforces", "codechef"] s

/-- `GitHubService.setupRepo`: create-new or verify-existing (insufficient
push permission → `PERMISSION_ERROR`), then ensure the folder structure;
every escaping error passes through `handleGitHubError`.  (The method's
initial `!this.octokit` check cannot fire: the constructor always
initializes the client.) -/
def setupRepo {σ : Type} (okr : OctoRepos σ) (okf : OctoFiles σ) (svc : Svc)
    (repoName : String) (isNew : Bool) (s : σ) :
    Except JsErr Unit × Svc × σ :=
  if isNew then
    match createNewRepo okr svc repoName s with
    | (.error e, svc2, s2) => (.error (.gh (handleGitHubError e)), svc2, s2)
    | (.ok _, svc2, s2) =>
      match initializeFoldersKeep okf svc2 s2 with
      | (.ok _, s3) => (.ok (), svc2, s3)
      | (.error e, s3) => (.error (.gh (handleGitHubError e)), svc2, s3)
  else
    match verifyRepoAccess okr svc s with
    | (.error e, s2) => (.error (.gh (handleGitHubError e)), svc, s2)
    | (.ok hasAccess, s2) =>
      if hasAccess then
        match initializeFoldersKeep okf svc s2 with
        | (.ok _, s3) => (.ok (), svc, s3)
        | (.error e, s3) => (.error (.gh (handleGitHubError e)), svc, s3)
      else
        (.error (.gh (handleGitHubError
          (.gh ⟨"Insufficient permissions for repository", "PERMISSION_ERROR"⟩))),
          svc, s2)

/-- `platform.charAt(0).toUpperCase() + platform.slice(1)`. -/
def capitalizeFirst (s : String) : String :=
  match s.toList with
  | [] => ""
  | c :: rest => ⟨Char.toUpper c :: rest⟩

/-- `GitHubService.generateRepositoryReadme` (verbatim, including the
mojibake emoji of the source file). -/
def generateRepositoryReadme : String :=
  "# üöÄ My Coding Journey\n\nThis repository contains my coding solutions from various competitive programming platforms, automatically managed by **PushUp** extension.\n\n## üìÅ Repository Structure\n\n```\n‚îú‚îÄ‚îÄ leetcode/          # LeetCode solutions\n‚îú‚îÄ‚îÄ codeforces/        # Codeforces solutions\n‚îî‚îÄ‚îÄ codechef/          # CodeChef solutions\n```\n\n## üéØ Platforms\n\n- **LeetCode**: Data Structures & Algorithms practice\n- **Codeforces**: Competitive programming contests\n- **CodeChef**: Monthly challenges and contests\n\n## üìä Progress Tracking\n\nThis repository is automatically updated by the PushUp browser extension, which:\n- ‚úÖ Automatically detects successful submissions\n- üìù Saves solutions with proper file organization\n- üî• Tracks coding streaks and progress\n- üèÜ Manages achievements and milestones\n\n---\n*Generated by [PushUp Extension](https://github.com/revanthm1902/PushUp) üéØ*\n"

/-- `GitHubService.generateFolderReadme`. -/
def generateFolderReadme (platform description : String) : String :=
  "# " ++ capitalizeFirst platform ++ " Solutions\n\n" ++ description ++
    " organized and tracked by PushUp extension.\n\n## üìù File Naming Convention\n\nFiles are automatically named based on the problem:\n- Problem titles are converted to kebab-case\n- File extensions match the programming language used\n- Example: `two-sum.py`, `binary-search.cpp`\n\n## üèÜ Stats\n\nSolutions in this folder are automatically tracked for:\n- Daily solving streaks\n- Difficulty distribution  \n- Language usage patterns\n- Time-based progress\n\n---\n*Auto-generated by PushUp Extension*\n"

/-- One folder of `GitHubService.initializeFolders` (the README variant):
create `name/README.md` only if missing. -/
def initFolderReadme {σ : Type} (okf : OctoFiles σ) (svc : Svc)
    (name description : String) (s : σ) : Except JsErr Unit × σ :=
  match checkFileExists okf svc (name ++ "/README.md") s with
  | (.error e, s2) => (.error e, s2)
  | (.ok true, s2) => (.ok (), s2)
  | (.ok false, s2) =>
    createFile okf svc (name ++ "/README.md") (generateFolderReadme name description)
      ("Initialize " ++ name ++ " folder") s2

/-- Sequencing of `initFolderReadme` over the platform folder list. -/
def initFoldersReadmeList {σ : Type} (okf : OctoFiles σ) (svc : Svc) :
    List (String × String) → σ → Except JsErr Unit × σ
  | [], s => (.ok (), s)
  | (n, d) :: rest, s =>
    match initFolderReadme okf svc n d s with
    | (.ok _, s2) => initFoldersReadmeList okf svc rest s2
    | (.error e, s2) => (.error e, s2)

/-- `GitHubService.initializeFolders` (the README variant): root README
then the three platform folders, each created only if missing; the method's
catch re-normalizes escaping errors. -/
def initializeFoldersReadme {σ : Type} (okf : OctoFiles σ) (svc : Svc)
    (s : σ) : Except JsErr Unit × σ :=
  match checkFileExists okf svc "README.md" s with
  | (.error e, s2) => (.error (.gh (handleGitHubError e)), s2)
  | (.ok true, s2) =>
    match initFoldersReadmeList okf svc
        [("leetcode", "LeetCode Solutions"), ("codeforces", "Codeforces Solutions"),
          ("codechef", "CodeChef Solutions")] s2 with
    | (.ok _, s3) => (.ok (), s3)
    | (.error e, s3) => (.error (.gh (handleGitHubError e)), s3)
  | (.ok false, s2) =>
    match createFile okf svc "README.md" generateRepositoryReadme
        "Initial commit: Setup repository structure" s2 with
    | (.error e, s3) => (.error (.gh (handleGitHubError e)), s3)
    | (.ok _, s3) =>
      match initFoldersReadmeList okf svc
          [("leetcode", "LeetCode Solutions"), ("codeforces", "Codeforces Solutions"),
            ("codechef", "CodeChef Solutions")] s3 with
      | (.ok _, s4) => (.ok (), s4)
      | (.error e, s4) => (.error (.gh (handleGitHubError e)), s4)

/-- The tail of `GitHubService.createRepositoryWithStructure` once repo data
was obtained: require `repoData.owner`, adopt owner/name, initialize the
folder structure, and return the repository URL. -/
def adoptRepoAndInit {σ : Type} (okf : OctoFiles σ) (svc : Svc)
    (data : RepoData) (s : σ) : Except JsErr (String × Svc) × Svc × σ :=
  match data.ownerLogin with
  | none => (.error (.gh ⟨"Failed to access repository", "REPO_ACCESS_ERROR"⟩), svc, s)
  | some login =>
    let svc2 : Svc := ⟨login, data.name⟩
    match initializeFoldersReadme okf svc2 s with
    | (.ok _, s3) => (.ok (data.htmlUrl, svc2), svc2, s3)
    | (.error e, s3) => (.error (.gh (handleGitHubError e)), svc2, s3)

/-- `GitHubService.createRepositoryWithStructure` (the create-or-adopt
setup flow): try to create; on a 422 fall back to fetching the existing
repository (`REPO_ACCESS_ERROR` if that also fails); then adopt and
initialize.  The successful result carries the repository URL and the
adopted owner/repo. -/
def createRepositoryWithStructure {σ : Type} (okr : OctoRepos σ)
    (okf : OctoFiles σ) (svc : Svc) (repoName : String)
    (description : Option String) (s : σ) :
    Except JsErr (String × Svc) × Svc × σ :=
  match okr.createRepo s repoName (description.getD
      "My coding solutions repository managed by PushUp - Practice makes perfect! üöÄ") with
  | (.ok data, s2) => adoptRepoAndInit okf svc data s2
  | (.error t, s2) =>
    if t.status = some 422 then
      match okr.getRepo s2 svc.owner repoName with
      | (.ok data, s3) => adoptRepoAndInit okf svc data s3
      | (.error _, s3) =>
        (.error (.gh ⟨"Repository already exists and cannot be accessed. Please choose a different name or check permissions.", "REPO_ACCESS_ERROR"⟩), svc, s3)
    else (.error (.gh (handleGitHubError (.raw t))), svc, s2)

/-! ## The faithful remote-store semantics of the file endpoints

For the idempotency claim the abstract transport is instantiated with
GitHub's actual contents-API behavior: `getContent` 404s on a missing path;
`createOrUpdateFileContents` creates when no `sha` is given and the path is
free, updates in place when the supplied `sha` matches the stored one, and
fails otherwise (422 for a creation over an existing path, 409 for a stale
`sha`). -/

/-- A stored remote file: its current content hash and content. -/
structure RemoteFile where
  sha : Nat
  content : String
deriving DecidableEq, Repr

/-- The remote repository contents: path-indexed files plus a fresh-hash
counter. -/
structure Store where
  files : List (String × RemoteFile)
  nextSha : Nat
deriving DecidableEq, Repr

/-- Find the file at `path`, if any. -/
def storeLookup (st : Store) (path : String) : Option RemoteFile :=
  (st.files.find? (fun e => e.1 = path)).map (·.2)

/-- The contents-API transport over a `Store`. -/
def ghFiles : OctoFiles Store where
  getContent := fun st _ _ path =>
    match storeLookup st path with
    | some f => (.ok (some f.sha), st)
    | none => (.error ⟨some 404, "Not Found"⟩, st)
  putContent := fun st _ _ path _message content sha =>
    match storeLookup st path, sha with
    | none, none =>
      (.ok (), ⟨st.files ++ [(path, ⟨st.nextSha, content⟩)], st.nextSha + 1⟩)
    | some f, some h =>
      if f.sha = h then
        (.ok (), ⟨st.files.map (fun e =>
          if e.1 = path then (path, ⟨st.nextSha, content⟩) else e), st.nextSha + 1⟩)
      else (.error ⟨some 409, "Conflict"⟩, st)
    | some _, none =>
      (.error ⟨some 422, "Invalid request: sha was not supplied"⟩, st)
    | none, some _ => (.error ⟨some 404, "Not Found"⟩, st)

/-- The five codes `handleGitHubError` can produce for a raw transport
error. -/
def transportCodes : List String :=
  ["UNAUTHORIZED", "FORBIDDEN", "NOT_FOUND", "VALIDATION_FAILED", "UNKNOWN_ERROR"]

/-- The closed error-code set claimed by the specification. -/
def specErrorCodes : List String :=
  ["AUTH_REQUIRED", "INIT_ERROR", "REPO_ACCESS_ERROR", "REPO_EXISTS",
    "REPO_CREATE_ERROR", "PERMISSION_ERROR", "UNAUTHORIZED", "FORBIDDEN",
    "NOT_FOUND", "VALIDATION_FAILED", "UNKNOWN_ERROR"]

/-- The actual closed error-code set of the client: the specification's
codes plus the two codes it missed (`INVALID_PLATFORM` from `getFilePath`,
`INVALID_RESPONSE` from `updateFile`). -/
def extendedErrorCodes : List String :=
  specErrorCodes ++ ["INVALID_PLATFORM", "INVALID_RESPONSE"]

/-- A transport whose every call fails with HTTP 401 (bad credentials) —
used to exhibit normalization of raw transport errors. -/
def ghReposUnauthorized : OctoRepos Unit where
  createRepo := fun s _ _ => (.error ⟨some 401, "Bad credentials"⟩, s)
  getRepo := fun s _ _ => (.error ⟨some 401, "Bad credentials"⟩, s)

/-! ## Submission detector (`content.ts`, expanded `SubmissionDetector`)

A document snapshot is embedded as what the DOM queries the detector issues
would return on it: `query sel` is `querySelector(sel)?.textContent`
(`none` when no element matches; `some ""` for a matching element with
empty text), `queryValue sel` the matched element's `.value`,
`selectedText sel` the text of a select element's selected option. -/

/-- One snapshot of the live document, as observed through the detector's
DOM queries. -/
structure Page where
  hostname : String
  url : String
  pathname : String
  searchLang : Option String
  docTitle : String
  bodyText : String
  query : String → Option String
  queryValue : String → Option String
  selectedText : String → Option String

/-- `SubmissionDetector.detectPlatform`: substring tests on the hostname. -/
def detectPlatform (hostname : String) : String :=
  if strIncludes hostname "leetcode" then "leetcode"
  else if strIncludes hostname "codeforces" then "codeforces"
  else if strIncludes hostname "codechef" then "codechef"
  else "unknown"

/-- `SubmissionDetector.isSuccessfulSubmission`: the per-platform OR of
success indicators (selector hits and body-text markers). -/
def isSuccessfulSubmission (platform : String) (p : Page) : Bool :=
  if platform = "leetcode" then
    (p.query ".success-icon").isSome ||
    (p.query "[data-e2e-locator=\"console-result\"] .text-green-s").isSome ||
    (p.query ".result-success").isSome ||
    (p.query "[data-testid=\"success-icon\"]").isSome ||
    (p.query ".text-green-600").isSome ||
    (p.query ".text-green-500").isSome ||
    (p.query "[class*=\"text-green\"]").isSome ||
    (p.query "[class*=\"success\"]").isSome ||
    strIncludes p.bodyText "Accepted" ||
    strIncludes p.bodyText "Success" ||
    strIncludes p.bodyText "Runtime:" ||
    strIncludes p.bodyText "Memory:"
  else if platform = "codeforces" then
    strIncludes p.bodyText "Accepted" ||
    (p.query ".verdict-accepted").isSome ||
    (p.query ".accepted").isSome ||
    (p.query "[class*=\"accepted\"]").isSome
  else if platform = "codechef" then
    strIncludes p.bodyText "Success" ||
    strIncludes p.bodyText "Accepted" ||
    (p.query ".result-success").isSome ||
    (p.query "[class*=\"success\"]").isSome
  else false

/-- First selector whose element exists and has non-empty trimmed text;
returns that trimmed text (the detector's selector-loop pattern). -/
def firstSelectorText (p : Page) : List String → Option String
  | [] => none
  | sel :: rest =>
    match p.query sel with
    | some t => if jsTrim t ≠ "" then some (jsTrim t) else firstSelectorText p rest
    | none => firstSelectorText p rest

/-- First selector in the list that matches an element at all (the
`q(a) || q(b) || q(c)` element-existence pattern); returns the selector. -/
def firstExisting (p : Page) : List String → Option String
  | [] => none
  | sel :: rest =>
    if (p.query sel).isSome then some sel else firstExisting p rest

/-- The expanded title-selector list of `extractLeetCodeProblemId`. -/
def titleSelectors : List String :=
  ["[data-cy=\"question-title\"]",
    "h1[class*=\"text-title-large\"]",
    "div[class*=\"text-title-large\"]",
    ".text-title-large",
    "h1[class*=\"text-label-1\"]",
    "div[class*=\"text-label-1\"]",
    ".text-label-1",
    "h1[class*=\"font-medium\"]",
    "div[class*=\"font-medium\"]",
    "h1[class*=\"mr-2\"]",
    "div[class*=\"mr-2\"]",
    "[class*=\"question-title\"]",
    "[class*=\"problem-title\"]",
    ".text-lg.font-medium",
    ".text-xl.font-medium",
    ".text-2xl.font-medium",
    ".title-text",
    ".css-v3d350",
    "h1[class*=\"text\"]",
    ".question-title",
    "h1",
    ".title",
    "[role=\"heading\"]"]

/-- First capture of the URL pattern: find an occurrence of `needle`
followed by at least one character outside `stop`, and return that maximal
run (regex scanning continues past occurrences with an empty capture). -/
def scanCapture (needle : List Char) (stop : Char → Bool) :
    List Char → Option (List Char)
  | [] => none
  | c :: t =>
    if needle.isPrefixOf (c :: t) then
      let cap := (((c :: t).drop needle.length).takeWhile (fun x => !stop x))
      if cap.isEmpty then scanCapture needle stop t else some cap
    else scanCapture needle stop t

/-- `extractLeetCodeProblemId`'s URL fallback: the first capture of the
pattern matching `problems` slash then one-or-more non-slash characters in
the pathname, with hyphens replaced by spaces. -/
def urlProblemsTitle (pathname : String) : Option String :=
  (scanCapture "/problems/".toList (fun c => c = '/') pathname.toList).map
    (fun cap => ⟨cap.map (fun c => if c = '-' then ' ' else c)⟩)

/-- `extractLeetCodeProblemId`'s document-title fallback: the leading run of
non-hyphen characters (the anchored one-or-more-non-hyphen capture), when
non-empty. -/
def docTitleMatch (t : String) : Option String :=
  let cap := t.toList.takeWhile (fun c => c ≠ '-')
  if cap.isEmpty then none else some ⟨cap⟩

/-- `SubmissionDetector.extractLeetCodeProblemId` (expanded): selector
chain, then URL fallback, then document-title fallback, then a
timestamp-based identifier; the final title is slugified.  Total: the last
fallback always succeeds. -/
def extractLeetCodeProblemId (p : Page) (now : Nat) : String :=
  let title1 := firstSelectorText p titleSelectors
  let title2 :=
    match title1 with
    | some t => some t
    | none => urlProblemsTitle p.pathname
  let title3 :=
    match title2 with
    | some t => some t
    | none =>
      if p.docTitle ≠ "" then (docTitleMatch p.docTitle).map jsTrim
      else none
  let title :=
    match title3 with
    | some t => t
    | none => "leetcode-problem-" ++ toString now
  slugifyTitle title

/-- `SubmissionDetector.extractLeetCodeCode` (expanded): Monaco editor,
then CodeMirror, then a `textarea[data-mode]`; throws when every method
yields empty code. -/
def extractLeetCodeCode (p : Page) : Except String String :=
  let code1 : String :=
    match p.query ".monaco-editor" with
    | some _ =>
      (match p.query ".monaco-editor .view-lines" with
       | some t => if t ≠ "" then jsTrim t else ""
       | none => "")
    | none => ""
  let code2 : String :=
    if code1 = "" then
      match p.query ".CodeMirror-code" with
      | some t => if t ≠ "" then jsTrim t else ""
      | none => ""
    else code1
  let code3 : String :=
    if code2 = "" then
      match p.queryValue "textarea[data-mode]" with
      | some v => if v ≠ "" then jsTrim v else ""
      | none => ""
    else code2
  if code3 = "" then .error "No code content found" else .ok code3

/-- The language-selector list of `extractLeetCodeLanguage`. -/
def languageSelectors : List String :=
  [".language-btn",
    "button[id*=\"headlessui-listbox-button\"]",
    "[data-track-load=\"description_page\"]",
    ".text-xs.font-medium.text-label-2",
    "button[class*=\"language\"]",
    "select[name=\"lang\"]"]

/-- `SubmissionDetector.extractLeetCodeLanguage` (expanded): selector
chain, then the `lang` URL parameter, then the `javascript` default;
lower-cased.  Total: the default always applies. -/
def extractLeetCodeLanguage (p : Page) : String :=
  let language :=
    match firstSelectorText p languageSelectors with
    | some t => t
    | none =>
      match p.searchLang with
      | some l => if l ≠ "" then l else "javascript"
      | none => "javascript"
  lowerStr language

/-- `SubmissionDetector.extractLeetCodeDifficulty` (expanded): a difficulty
element's text, else the page text, scanned for easy/medium/hard. -/
def extractLeetCodeDifficulty (p : Page) : Option Difficulty :=
  match firstExisting p ["[diff]", ".css-10o4wqw", "[data-difficulty]"] with
  | none =>
    let pageText := lowerStr p.bodyText
    if strIncludes pageText "easy" then some .easy
    else if strIncludes pageText "medium" then some .medium
    else if strIncludes pageText "hard" then some .hard
    else none
  | some sel =>
    let diffText := lowerStr ((p.query sel).getD "")
    if strIncludes diffText "easy" then some .easy
    else if strIncludes diffText "medium" then some .medium
    else if strIncludes diffText "hard" then some .hard
    else none

/-- The title-selector list of `extractLeetCodeTitle`. -/
def leetTitleSelectors : List String :=
  [".title-text",
    "[data-cy=\"question-title\"]",
    ".css-v3d350",
    ".text-title-large",
    ".mr-2.text-label-1.dark\\:text-dark-label-1.font-medium",
    "h1[class*=\"text\"]",
    "[class*=\"question-title\"]",
    ".question-title",
    "h1"]

/-- `SubmissionDetector.extractLeetCodeTitle` (expanded). -/
def extractLeetCodeTitle (p : Page) : Option String :=
  firstSelectorText p leetTitleSelectors

/-- `SubmissionDetector.extractCodeforceProblemId`: URL capture of
`problem` slash then one-or-more `[A-Z0-9]`, lower-cased; else the `.title`
text slugified; else `"unknown"`. -/
def extractCodeforceProblemId (p : Page) : String :=
  match scanCapture "problem/".toList
      (fun c => !(('A' ≤ c && c ≤ 'Z') || ('0' ≤ c && c ≤ '9'))) p.url.toList with
  | some cap => lowerStr ⟨cap⟩
  | none =>
    match p.query ".title" with
    | some title => if title ≠ "" then slugifyTitle title else "unknown"
    | none => "unknown"

/-- The element-text-or-value read of the Codeforces/CodeChef code
extractors: `codeElement.textContent || codeElement.value`. -/
def textOrValue (p : Page) (sel : String) : String :=
  match p.query sel with
  | some t => if t ≠ "" then t else (p.queryValue sel).getD ""
  | none => (p.queryValue sel).getD ""

/-- `SubmissionDetector.extractCodeforceCode`. -/
def extractCodeforceCode (p : Page) : Except String String :=
  match firstExisting p
      ["textarea[name=\"sourceCode\"]", ".CodeMirror-code", "#program-source-text"] with
  | none => .error "Could not find code editor"
  | some sel =>
    let code := textOrValue p sel
    if code = "" then .error "No code content found" else .ok (jsTrim code)

/-- `SubmissionDetector.extractCodeforceLanguage`. -/
def extractCodeforceLanguage (p : Page) : Except String String :=
  if (p.query "select[name=\"programTypeId\"]").isNone then
    .error "Could not find language selector"
  else
    match p.selectedText "select[name=\"programTypeId\"]" with
    | some l => if l ≠ "" then .ok (lowerStr l) else .error "No language selected"
    | none => .error "No language selected"

/-- `SubmissionDetector.extractCodeforceTitle`. -/
def extractCodeforceTitle (p : Page) : Option String :=
  match firstExisting p [".title", ".problem-statement .title"] with
  | none => none
  | some sel => (p.query sel).map jsTrim

/-- `SubmissionDetector.extractCodechefProblemId`. -/
def extractCodechefProblemId (p : Page) : String :=
  match scanCapture "problems/".toList
      (fun c => !(('A' ≤ c && c ≤ 'Z') || ('0' ≤ c && c ≤ '9'))) p.url.toList with
  | some cap => lowerStr ⟨cap⟩
  | none =>
    match p.query ".problem-title" with
    | some title => if title ≠ "" then slugifyTitle title else "unknown"
    | none => "unknown"

/-- `SubmissionDetector.extractCodechefCode`. -/
def extractCodechefCode (p : Page) : Except String String :=
  match firstExisting p
      ["#solution_code", ".CodeMirror-code", "textarea[name=\"code\"]"] with
  | none => .error "Could not find code editor"
  | some sel =>
    let code := textOrValue p sel
    if code = "" then .error "No code content found" else .ok (jsTrim code)

/-- `SubmissionDetector.extractCodechefLanguage`. -/
def extractCodechefLanguage (p : Page) : Except String String :=
  if (p.query "#language").isNone then
    .error "Could not find language selector"
  else
    match p.selectedText "#language" with
    | some l => if l ≠ "" then .ok (lowerStr l) else .error "No language selected"
    | none => .error "No language selected"

/-- `SubmissionDetector.extractCodechefTitle`. -/
def extractCodechefTitle (p : Page) : Option String :=
  match firstExisting p [".problem-title", "h1", ".title"] with
  | none => none
  | some sel => (p.query sel).map jsTrim

/-- One captured submission record (`SubmissionData`).  Fields the code
leaves `undefined` are embedded as `""` / `none`. -/
structure SubmissionData where
  platform : String
  problemId : String
  code : String
  language : String
  difficulty : Option Difficulty
  title : Option String
deriving DecidableEq, Repr

/-- The object-literal evaluation inside
`SubmissionDetector.extractSubmissionData`'s `try`: fields are extracted in
source order and the first thrown error abandons the whole literal (the
spread assignment is atomic, so successfully extracted earlier fields are
discarded too). -/
def attemptExtract (platform : String) (p : Page) (now : Nat) :
    Except String SubmissionData :=
  if platform = "leetcode" then
    let problemId := extractLeetCodeProblemId p now
    match extractLeetCodeCode p with
    | .error m => .error m
    | .ok code =>
      let language := extractLeetCodeLanguage p
      let difficulty := extractLeetCodeDifficulty p
      let title := extractLeetCodeTitle p
      .ok ⟨platform, problemId, code, language, difficulty, title⟩
  else if platform = "codeforces" then
    let problemId := extractCodeforceProblemId p
    match extractCodeforceCode p with
    | .error m => .error m
    | .ok code =>
      match extractCodeforceLanguage p with
      | .error m => .error m
      | .ok language =>
        let title := extractCodeforceTitle p
        .ok ⟨platform, problemId, code, language, none, title⟩
  else if platform = "codechef" then
    let problemId := extractCodechefProblemId p
    match extractCodechefCode p with
    | .error m => .error m
    | .ok code =>
      match extractCodechefLanguage p with
      | .error m => .error m
      | .ok language =>
        let title := extractCodechefTitle p
        .ok ⟨platform, problemId, code, language, none, title⟩
  else .ok ⟨platform, "", "", "", none, none⟩

/-- `SubmissionDetector.extractSubmissionData` (expanded): on any thrown
extraction error the record-level catch substitutes fallback values for
`problemId`, `code` and `language` ("Still try to send partial data with
fallbacks") and the record is still returned. -/
def extractSubmissionData (platform : String) (p : Page) (now : Nat) :
    SubmissionData :=
  match attemptExtract platform p now with
  | .ok d => d
  | .error _ =>
    ⟨platform, "unknown-" ++ toString now, "// Code extraction failed",
      "unknown", none, none⟩

/-- One invocation of the mutation-observer callback of
`SubmissionDetector.initializeDetection`: whenever
`isSuccessfulSubmission()` holds on the current snapshot, a record is
extracted and forwarded (`sendToBackground`) — there is no edge detection
or debouncing state. -/
def observerCallback (platform : String) (p : Page) (now : Nat) :
    List SubmissionData :=
  if isSuccessfulSubmission platform p then
    [extractSubmissionData platform p now]
  else []

/-- The records forwarded over a sequence of mutation batches (one snapshot
per callback invocation). -/
def observerRun (platform : String) (batches : List Page) (now : Nat) :
    List SubmissionData :=
  batches.flatMap (fun p => observerCallback platform p now)

/-- A concrete LeetCode page snapshot: the success marker and the problem
title and language button are present, but no code editor of any kind. -/
def pageSuccessNoCode : Page where
  hostname := "leetcode.com"
  url := "https://leetcode.com/problems/two-sum/"
  pathname := "/problems/two-sum/"
  searchLang := none
  docTitle := "Two Sum - LeetCode"
  bodyText := "Accepted Runtime: 52 ms"
  query := fun sel =>
    if sel = ".success-icon" then some ""
    else if sel = ".title-text" then some "Two Sum"
    else if sel = ".language-btn" then some "Python3"
    else none
  queryValue := fun _ => none
  selectedText := fun _ => none

/-! ## Theorems -/

theorem isSlugChar_ne_hyphen {c : Char} (h : isSlugChar c = true) : c ≠ '-' := by
  rintro rfl
  simp [isSlugChar] at h

theorem badFile_false_ne_hyphen {c : Char} (h : badFile c = false) : c ≠ '-' := by
  simp only [badFile, Bool.not_eq_false', Bool.or_eq_true, decide_eq_true_eq] at h
  rcases h with h | h
  · exact isSlugChar_ne_hyphen h
  · rintro rfl; simp at h

theorem subst_eq (c : Char) :
    (if isKeepChar c then c else '-') = (if badFile c then '-' else c) := by
  by_cases hs : isSlugChar c = true
  · simp [isKeepChar, hs, badFile]
  · by_cases hu : c = '_'
    · subst hu; simp [isKeepChar, badFile, isSlugChar]
    · by_cases hh : c = '-'
      · subst hh; simp [isKeepChar, badFile, isSlugChar]
      · simp [isKeepChar, hs, hu, hh, badFile]

theorem replaceRunsAux_map (l : List Char) : ∀ inRun,
    replaceRunsAux (fun c => c = '-') inRun
      (l.map (fun c => if badFile c then '-' else c)) =
    replaceRunsAux badFile inRun l := by
  induction l with
  | nil => intro inRun; rfl
  | cons c cs ih =>
    intro inRun
    by_cases hb : badFile c = true
    · cases inRun <;> simp [replaceRunsAux, hb, ih]
    · have hb' : badFile c = false := by simpa using hb
      have hne : c ≠ '-' := badFile_false_ne_hyphen hb'
      cases inRun <;> simp [replaceRunsAux, hb', hne, ih]

theorem replaceRunsAux_chain (l : List Char) : ∀ inRun,
    ((replaceRunsAux badFile inRun l).Chain' NoDH) ∧
    ((replaceRunsAux badFile true l).head? ≠ some '-') := by
  induction l with
  | nil =>
    intro inRun
    constructor
    · exact List.chain'_nil
    · simp [replaceRunsAux]
  | cons c cs ih =>
    intro inRun
    by_cases hb : badFile c = true
    · constructor
      · cases inRun
        · simp only [replaceRunsAux, hb, if_true, Bool.false_eq_true, if_false]
          refine List.chain'_cons'.2 ⟨?_, (ih true).1⟩
          intro b hbmem hab
          exact (ih true).2 (by rw [hbmem, hab.2])
        · simp only [replaceRunsAux, hb, if_true]
          exact (ih true).1
      · simp only [replaceRunsAux, hb, if_true]
        exact (ih true).2
    · have hb' : badFile c = false := by simpa using hb
      have hne : c ≠ '-' := badFile_false_ne_hyphen hb'
      constructor
      · simp only [replaceRunsAux, hb', Bool.false_eq_true, if_false]
        refine List.chain'_cons'.2 ⟨?_, (ih false).1⟩
        intro b _ hab
        exact hne hab.1
      · simp only [replaceRunsAux, hb', Bool.false_eq_true, if_false]
        simp [hne]

theorem chain_dropWhile_eq_dropOne (l : List Char) (h : l.Chain' NoDH) :
    l.dropWhile (fun c => c = '-') = dropOneHyphen l := by
  match l with
  | [] => rfl
  | c :: t =>
    by_cases hc : c = '-'
    · subst hc
      match t with
      | [] => rfl
      | b :: t' =>
        have hb : b ≠ '-' := by
          have := (List.chain'_cons.1 h).1
          intro hb; exact this ⟨rfl, hb⟩
        simp [List.dropWhile, dropOneHyphen, hb]
    · simp [List.dropWhile, dropOneHyphen, hc]

theorem NoDH.flip_imp {a b : Char} (h : NoDH b a) : NoDH a b := by
  intro hab; exact h ⟨hab.2, hab.1⟩

theorem chain_trimOne_eq_trim (l : List Char) (h : l.Chain' NoDH) :
    trimOneHyphen l = trimHyphens l := by
  have h1 := chain_dropWhile_eq_dropOne l h
  have hchain2 : ((l.dropWhile (fun c => c = '-')).reverse).Chain' NoDH := by
    rw [List.chain'_reverse]
    exact (h.suffix (List.dropWhile_suffix _)).imp (fun _ _ hr => NoDH.flip_imp hr)
  have h2 := chain_dropWhile_eq_dropOne _ hchain2
  unfold trimHyphens trimOneHyphen
  rw [h2, h1]

/-- C5, counterexample: the claimed slugification rule ("replace every run of
characters outside `[a-z0-9]` with a single hyphen") disagrees with the
file-name sanitizer of `github.ts` on the identifier `"two_sum"`: the code
keeps the underscore (`sanitizeFileName` keeps `[a-z0-9-_]`), while the
claimed rule would hyphenate it. -/
theorem c5_counterexample :
    sanitizeFileName "two_sum" = "two_sum" ∧
    specSlugRule "two_sum" = "two-sum" ∧
    sanitizeFileName "two_sum" ≠ specSlugRule "two_sum" := by
  exact ⟨by decide, by decide, by decide⟩

/-- C5, amended: the file-name stem is sanitized by lower-casing, replacing
every run of characters outside `[a-z0-9_]` with a single hyphen (underscores
and existing hyphens survive), and trimming leading/trailing hyphens; the
extractor's title slug follows the original claimed rule exactly, and the
problem identifier "Two Sum! (Easy)" still sanitizes to "two-sum-easy". -/
theorem c5_sanitize_amended :
    (∀ s : String, sanitizeFileName s = amendedSlugRule s) ∧
    sanitizeFileName "Two Sum! (Easy)" = "two-sum-easy" ∧
    (∀ s : String, slugifyTitle s = specSlugRule s) := by
  refine ⟨?_, by decide, fun s => rfl⟩
  intro s
  unfold sanitizeFileName amendedSlugRule
  have hfun : (fun c => if isKeepChar c then c else '-') =
      (fun c => if badFile c then '-' else c) := funext subst_eq
  rw [hfun]
  dsimp only
  rw [show ∀ l, replaceRuns (fun c => c = '-')
        (l.map (fun c => if badFile c then '-' else c)) =
        replaceRuns badFile l from fun l => replaceRunsAux_map l false]
  exact congrArg String.mk
    (chain_trimOne_eq_trim _ ((replaceRunsAux_chain (s.toList.map Char.toLower) false).1))

/-- C3: the streak update of `streak.ts` implements exactly the transition
function the claim describes (same-day no-op; +1 when the last contribution
was exactly the previous day; reset to 1 otherwise; `longestStreak` becomes
the max and `lastContributionDate` the event date in every non-same-day
case), and the event sequence 2025-01-01, 2025-01-02, 2025-01-05 ends with
`currentStreak = 1` and `longestStreak = 2`. -/
theorem c3_streak_transition :
    (∀ (d : StreakData) (t : Int), updateStreak d t = updateStreakSpec d t) ∧
    (List.foldl updateStreak initialStreak
      [daysFromCivil 2025 1 1, daysFromCivil 2025 1 2, daysFromCivil 2025 1 5]).streak = 1 ∧
    (List.foldl updateStreak initialStreak
      [daysFromCivil 2025 1 1, daysFromCivil 2025 1 2,
        daysFromCivil 2025 1 5]).longestStreak = 2 := by
  refine ⟨?_, by decide, by decide⟩
  intro d t
  unfold updateStreak updateStreakSpec
  split
  · rfl
  · cases hl : d.lastPushDate with
    | none => simp [Nat.max_comm]
    | some last => simp [Nat.max_comm]

/-- C6: after every streak update along any event history starting from the
initial stored state, `longestStreak ≥ currentStreak`; and `longestStreak`
never decreases across an `updateStreak` step (hence it is monotonically
non-decreasing along any event sequence, in particular any sequence with
non-decreasing dates). -/
theorem c6_longest_streak_invariant :
    (∀ ds : List Int, (List.foldl updateStreak initialStreak ds).streak ≤
      (List.foldl updateStreak initialStreak ds).longestStreak) ∧
    (∀ (d : StreakData) (t : Int),
      d.longestStreak ≤ (updateStreak d t).longestStreak) := by
  have hstep : ∀ (d : StreakData), d.streak ≤ d.longestStreak → ∀ t : Int,
      (updateStreak d t).streak ≤ (updateStreak d t).longestStreak := by
    intro d h t
    unfold updateStreak
    split
    · exact h
    · exact Nat.le_max_left _ _
  constructor
  · have hfold : ∀ (ds : List Int) (d : StreakData), d.streak ≤ d.longestStreak →
        (List.foldl updateStreak d ds).streak ≤
          (List.foldl updateStreak d ds).longestStreak := by
      intro ds
      induction ds with
      | nil => intro d h; exact h
      | cons t ts ih => intro d h; exact ih _ (hstep d h t)
    exact fun ds => hfold ds initialStreak (Nat.le_refl 0)
  · intro d t
    unfold updateStreak
    split
    · exact Nat.le_refl _
    · exact Nat.le_max_right _ _

theorem bumpFirstToday_map_date (today : Int) (diff : Option Difficulty) :
    ∀ l : List DailySubmissionData,
      (bumpFirstToday today diff l).map (·.date) = l.map (·.date) := by
  intro l
  induction l with
  | nil => rfl
  | cons b rest ih =>
    by_cases hb : b.date = today
    · simp [bumpFirstToday, hb, bumpBucket]
    · simp [bumpFirstToday, hb, ih]

/-- C7: the daily-submissions update preserves "at most one bucket per
date", guarantees a bucket for the event date exists afterwards (created
lazily when absent), and after every update every retained bucket is dated
within 365 days of the event date — equivalently, any bucket dated more than
365 days before the event date is gone after the very next update. -/
theorem c7_daily_bucket_invariant :
    (∀ (subs : List DailySubmissionData) (diff : Option Difficulty) (today : Int),
      subs.Pairwise (fun a b => a.date ≠ b.date) →
      (updateDailySubmissions subs diff today).Pairwise (fun a b => a.date ≠ b.date)) ∧
    (∀ (subs : List DailySubmissionData) (diff : Option Difficulty) (today : Int),
      ∃ b ∈ updateDailySubmissions subs diff today, b.date = today) ∧
    (∀ (subs : List DailySubmissionData) (diff : Option Difficulty) (today : Int),
      ∀ b ∈ updateDailySubmissions subs diff today, today - 365 ≤ b.date) ∧
    (∀ (subs : List DailySubmissionData) (diff : Option Difficulty) (today : Int)
      (b : DailySubmissionData), b.date < today - 365 →
      b ∉ updateDailySubmissions subs diff today) := by
  have hmem : ∀ (subs : List DailySubmissionData) (diff : Option Difficulty)
      (today : Int), ∀ b ∈ updateDailySubmissions subs diff today,
        today - 365 ≤ b.date := by
    intro subs diff today b hb
    have := List.mem_filter.1 hb
    simpa using this.2
  refine ⟨?_, ?_, hmem, ?_⟩
  · intro subs diff today hpw
    unfold updateDailySubmissions
    apply List.Pairwise.filter
    have hwt : (if subs.any (fun b => b.date = today) then subs
        else subs ++ [⟨today, 0, ⟨0, 0, 0⟩⟩]).Pairwise
          (fun a b => a.date ≠ b.date) := by
      split
      · exact hpw
      · rename_i hany
        rw [List.pairwise_append]
        refine ⟨hpw, List.pairwise_singleton _ _, ?_⟩
        intro a ha b hb
        have hb' : b = (⟨today, 0, ⟨0, 0, 0⟩⟩ : DailySubmissionData) := by
          simpa using hb
        subst hb'
        intro hcontra
        exact hany (List.any_eq_true.2 ⟨a, ha, by simpa using hcontra⟩)
    have hmapeq := bumpFirstToday_map_date today diff
      (if subs.any (fun b => b.date = today) then subs
        else subs ++ [⟨today, 0, ⟨0, 0, 0⟩⟩])
    have h1 : ((if subs.any (fun b => b.date = today) then subs
        else subs ++ [⟨today, 0, ⟨0, 0, 0⟩⟩]).map (·.date)).Pairwise (· ≠ ·) :=
      List.pairwise_map.2 hwt
    have h2 := hmapeq ▸ h1
    exact List.pairwise_map.1 h2
  · intro subs diff today
    unfold updateDailySubmissions
    have hdate : today ∈ (bumpFirstToday today diff
        (if subs.any (fun b => b.date = today) then subs
          else subs ++ [⟨today, 0, ⟨0, 0, 0⟩⟩])).map (·.date) := by
      rw [bumpFirstToday_map_date]
      split
      · rename_i hany
        obtain ⟨b, hb, hbd⟩ := List.any_eq_true.1 hany
        exact List.mem_map.2 ⟨b, hb, by simpa using hbd.symm⟩
      · exact List.mem_map.2 ⟨⟨today, 0, ⟨0, 0, 0⟩⟩, by simp, rfl⟩
    obtain ⟨b, hb, hbd⟩ := List.mem_map.1 hdate
    refine ⟨b, List.mem_filter.2 ⟨hb, ?_⟩, hbd⟩
    simp [hbd]
  · intro subs diff today b hold hb
    have := hmem subs diff today b hb
    omega

/-- C7 witness: a concrete run — one stored bucket dated day 0, an event on
day 400: the result still has pairwise-distinct dates, and the stale bucket
has been pruned by this very update. -/
theorem c7_witness :
    (updateDailySubmissions [⟨0, 1, ⟨1, 0, 0⟩⟩] none 400).Pairwise
      (fun a b => a.date ≠ b.date) ∧
    (⟨0, 1, ⟨1, 0, 0⟩⟩ : DailySubmissionData) ∉
      updateDailySubmissions [⟨0, 1, ⟨1, 0, 0⟩⟩] none 400 := by
  constructor
  · exact c7_daily_bucket_invariant.1 _ none 400 (List.pairwise_singleton _ _)
  · exact c7_daily_bucket_invariant.2.2.2 _ none 400 _ (by decide)

theorem checkAch_fold_sub (s : Nat) :
    ∀ (as : List Achievement) (acc : List Achievement × List String) (x : String),
      x ∈ acc.2 →
      x ∈ (as.foldl (fun acc a =>
        if !acc.2.contains a.id && a.condition s then (acc.1 ++ [a], acc.2 ++ [a.id])
        else acc) acc).2 := by
  intro as
  induction as with
  | nil => intro acc x hx; exact hx
  | cons a as' ih =>
    intro acc x hx
    simp only [List.foldl_cons]
    apply ih
    by_cases h : (!acc.2.contains a.id && a.condition s) = true
    · rw [if_pos h]
      exact List.mem_append_left _ hx
    · rw [if_neg h]
      exact hx

theorem checkAch_fold_fresh (s : Nat) :
    ∀ (as : List Achievement) (acc : List Achievement × List String) (a : Achievement),
      a ∈ (as.foldl (fun acc a =>
        if !acc.2.contains a.id && a.condition s then (acc.1 ++ [a], acc.2 ++ [a.id])
        else acc) acc).1 →
      a ∈ acc.1 ∨ acc.2.contains a.id = false := by
  intro as
  induction as with
  | nil => intro acc a ha; exact Or.inl ha
  | cons a0 as' ih =>
    intro acc a ha
    simp only [List.foldl_cons] at ha
    by_cases h : (!acc.2.contains a0.id && a0.condition s) = true
    · rw [if_pos h] at ha
      have h' := h
      simp only [Bool.and_eq_true, Bool.not_eq_true'] at h'
      rcases ih _ a ha with hmem | hfresh
      · rcases List.mem_append.1 hmem with h1 | h2
        · exact Or.inl h1
        · have haa0 : a = a0 := by simpa using h2
          subst haa0
          exact Or.inr h'.1
      · refine Or.inr ?_
        by_contra hc
        have hmema : a.id ∈ acc.2 := by
          cases hx : acc.2.contains a.id
          · exact absurd hx hc
          · simpa using hx
        simp at hfresh
        exact hfresh.1 hmema
    · rw [if_neg h] at ha
      exact ih _ a ha

theorem checkAch_fold_closed (s : Nat) :
    ∀ (as : List Achievement) (acc : List Achievement × List String),
      (∀ a ∈ acc.1, a.id ∈ acc.2) →
      ∀ a ∈ (as.foldl (fun acc a =>
        if !acc.2.contains a.id && a.condition s then (acc.1 ++ [a], acc.2 ++ [a.id])
        else acc) acc).1,
        a.id ∈ (as.foldl (fun acc a =>
          if !acc.2.contains a.id && a.condition s then (acc.1 ++ [a], acc.2 ++ [a.id])
          else acc) acc).2 := by
  intro as
  induction as with
  | nil => intro acc hinv a ha; exact hinv a ha
  | cons a0 as' ih =>
    intro acc hinv
    simp only [List.foldl_cons]
    apply ih
    by_cases h : (!acc.2.contains a0.id && a0.condition s) = true
    · rw [if_pos h]
      intro a ha
      rcases List.mem_append.1 ha with h1 | h2
      · exact List.mem_append_left _ (hinv a h1)
      · have haa0 : a = a0 := by simpa using h2
        subst haa0
        exact List.mem_append_right _ (by simp)
    · rw [if_neg h]
      exact hinv

/-- C8: the unlocked achievement set only grows across a `checkAchievements`
call; no returned achievement carries an id that was already unlocked; every
returned achievement's id is in the updated set; hence across two successive
calls no id is ever reported as newly unlocked twice, even if its condition
holds again. -/
theorem c8_achievement_set_monotone :
    (∀ (u : List String) (s : Nat) (x : String),
      x ∈ u → x ∈ (checkAchievements u s).2) ∧
    (∀ (u : List String) (s : Nat) (a : Achievement),
      a ∈ (checkAchievements u s).1 → a.id ∉ u) ∧
    (∀ (u : List String) (s : Nat) (a : Achievement),
      a ∈ (checkAchievements u s).1 → a.id ∈ (checkAchievements u s).2) ∧
    (∀ (u : List String) (s s2 : Nat) (a b : Achievement),
      a ∈ (checkAchievements u s).1 →
      b ∈ (checkAchievements (checkAchievements u s).2 s2).1 →
      b.id ≠ a.id) := by
  have hfresh : ∀ (u : List String) (s : Nat) (a : Achievement),
      a ∈ (checkAchievements u s).1 → a.id ∉ u := by
    intro u s a ha
    rcases checkAch_fold_fresh s achievements ([], u) a ha with h1 | h2
    · simp at h1
    · intro hmem
      have : u.contains a.id = true := by simpa using hmem
      rw [this] at h2
      cases h2
  have hclosed : ∀ (u : List String) (s : Nat) (a : Achievement),
      a ∈ (checkAchievements u s).1 → a.id ∈ (checkAchievements u s).2 := by
    intro u s a ha
    exact checkAch_fold_closed s achievements ([], u) (by simp) a ha
  refine ⟨?_, hfresh, hclosed, ?_⟩
  · intro u s x hx
    exact checkAch_fold_sub s achievements ([], u) x hx
  · intro u s s2 a b ha hb hba
    exact hfresh _ s2 b hb (hba ▸ hclosed u s a ha)

/-- C8 witness: with `"streak-30"` already unlocked and a 7-day streak, the
already-unlocked id stays in the set, and the newly reported
`"streak-7"` achievement was not previously unlocked. -/
theorem c8_witness :
    "streak-30" ∈ (checkAchievements ["streak-30"] 7).2 ∧
    (⟨"streak-7", "1 Week Streak", "🔥 You've been coding for 7 days straight!",
      "🔥", fun streak => 7 ≤ streak⟩ : Achievement).id ∉ ["streak-30"] := by
  constructor
  · exact c8_achievement_set_monotone.1 ["streak-30"] 7 "streak-30" (by simp)
  · exact c8_achievement_set_monotone.2.1 ["streak-30"] 7 _
      (by simp [checkAchievements, achievements])

/-- C10: for any platform whose lower-cased form is none of the three
supported ones, `saveSolution` throws the `INVALID_PLATFORM` `GitHubError`
and — for every transport oracle and every remote state — returns the state
untouched: the failure happens before any remote read or write, so no file
is ever created or updated for such a record. -/
theorem c10_invalid_platform {σ : Type} (okf : OctoFiles σ) (svc : Svc)
    (platform problemId code language : String) (s : σ)
    (h1 : lowerStr platform ≠ "leetcode")
    (h2 : lowerStr platform ≠ "codeforces")
    (h3 : lowerStr platform ≠ "codechef") :
    saveSolution okf svc platform problemId code language s =
      (.error (.gh ⟨"Unsupported platform: " ++ platform, "INVALID_PLATFORM"⟩), s) := by
  unfold saveSolution getFilePath
  simp [h1, h2, h3]

/-- C10 witness: the `"unknown"` platform value the extractor produces for
unrecognized hosts, against the concrete store transport and an empty store. -/
theorem c10_witness :
    saveSolution ghFiles ⟨"o", "r"⟩ "unknown" "two-sum" "code" "python" ⟨[], 0⟩ =
      (.error (.gh ⟨"Unsupported platform: unknown", "INVALID_PLATFORM"⟩),
        (⟨[], 0⟩ : Store)) :=
  c10_invalid_platform ghFiles _ _ _ _ _ _ (by decide) (by decide) (by decide)

/-- C2: against the faithful store semantics, starting from any store with
nothing at the solution's deterministic path, the first `saveSolution`
succeeds and creates exactly one file at that path; the second identical
call detects the file's existence, succeeds by updating in place (the store
afterwards holds the latest code at the path, exactly one entry for the
path, and no path anywhere was added or removed). -/
theorem c2_save_idempotent (svc : Svc)
    (platform problemId code language path : String) (st : Store)
    (hpath : getFilePath platform problemId language = .ok path)
    (habsent : storeLookup st path = none) :
    (saveSolution ghFiles svc platform problemId code language st).1 = .ok () ∧
    ((saveSolution ghFiles svc platform problemId code language st).2).files =
      st.files ++ [(path, ⟨st.nextSha, code⟩)] ∧
    checkFileExists ghFiles svc path
      ((saveSolution ghFiles svc platform problemId code language st).2) =
      (.ok true, (saveSolution ghFiles svc platform problemId code language st).2) ∧
    (saveSolution ghFiles svc platform problemId code language
      (saveSolution ghFiles svc platform problemId code language st).2).1 = .ok () ∧
    (((saveSolution ghFiles svc platform problemId code language st).2).files.filter
      (fun e => e.1 = path)).length = 1 ∧
    (((saveSolution ghFiles svc platform problemId code language
      (saveSolution ghFiles svc platform problemId code language st).2).2).files.filter
      (fun e => e.1 = path)).length = 1 ∧
    (storeLookup ((saveSolution ghFiles svc platform problemId code language
      (saveSolution ghFiles svc platform problemId code language st).2).2) path).map
      (fun f => f.content) = some code ∧
    ((saveSolution ghFiles svc platform problemId code language
      (saveSolution ghFiles svc platform problemId code language st).2).2).files.map
      (fun e => e.1) =
    ((saveSolution ghFiles svc platform problemId code language st).2).files.map
      (fun e => e.1) := by
  have hfind : st.files.find? (fun e => e.1 = path) = none := by
    unfold storeLookup at habsent
    exact Option.map_eq_none'.1 habsent
  have hcheck1 : checkFileExists ghFiles svc path st = (.ok false, st) := by
    simp [checkFileExists, ghFiles, habsent]
  have hsave1 : saveSolution ghFiles svc platform problemId code language st =
      (.ok (), ⟨st.files ++ [(path, ⟨st.nextSha, code⟩)], st.nextSha + 1⟩) := by
    unfold saveSolution
    rw [hpath]
    dsimp only
    rw [hcheck1]
    dsimp only
    simp [createFile, ghFiles, habsent]
  set st1 : Store := ⟨st.files ++ [(path, ⟨st.nextSha, code⟩)], st.nextSha + 1⟩ with hst1
  have hlook1 : storeLookup st1 path = some ⟨st.nextSha, code⟩ := by
    unfold storeLookup
    rw [hst1]
    dsimp only
    rw [List.find?_append, hfind]
    simp
  have hcheck2 : checkFileExists ghFiles svc path st1 = (.ok true, st1) := by
    simp [checkFileExists, ghFiles, hlook1]
  have hupd : updateFile ghFiles svc path code
      (generateCommitMessage platform problemId true) st1 =
      (.ok (), ⟨st1.files.map (fun e =>
        if e.1 = path then (path, ⟨st1.nextSha, code⟩) else e), st1.nextSha + 1⟩) := by
    unfold updateFile
    simp only [ghFiles, hlook1]
    simp
  have hsave2 : saveSolution ghFiles svc platform problemId code language st1 =
      (.ok (), ⟨st1.files.map (fun e =>
        if e.1 = path then (path, ⟨st1.nextSha, code⟩) else e), st1.nextSha + 1⟩) := by
    unfold saveSolution
    rw [hpath]
    dsimp only
    rw [hcheck2]
    dsimp only
    rw [if_pos rfl, hupd]
  set g : String × RemoteFile → String × RemoteFile := fun e =>
    if e.1 = path then (path, ⟨st1.nextSha, code⟩) else e with hg
  set st2 : Store := ⟨st1.files.map g, st1.nextSha + 1⟩ with hst2
  have hfilter_nil : st.files.filter (fun e => e.1 = path) = [] :=
    List.filter_eq_nil_iff.2 (List.find?_eq_none.1 hfind)
  have hcount1 : (st1.files.filter (fun e => e.1 = path)).length = 1 := by
    rw [hst1]
    dsimp only
    rw [List.filter_append, hfilter_nil]
    simp
  have hpg : ∀ e : String × RemoteFile,
      (fun e => decide (e.1 = path)) (g e) = (fun e => decide (e.1 = path)) e := by
    intro e
    rw [hg]
    dsimp only
    by_cases he : e.1 = path
    · rw [if_pos he]; simp [he]
    · rw [if_neg he]
  have hcount2 : (st2.files.filter (fun e => e.1 = path)).length = 1 := by
    rw [hst2]
    dsimp only
    rw [← List.countP_eq_length_filter, List.countP_map]
    have : (fun e => decide (e.1 = path)) ∘ g = (fun e => decide (e.1 = path)) :=
      funext hpg
    rw [this, List.countP_eq_length_filter]
    exact hcount1
  have hlook2 : storeLookup st2 path = some ⟨st1.nextSha, code⟩ := by
    unfold storeLookup
    rw [hst2]
    dsimp only
    rw [List.find?_map]
    have : (fun e : String × RemoteFile => decide (e.1 = path)) ∘ g =
        (fun e => decide (e.1 = path)) := funext hpg
    rw [this]
    have hfind1 : st1.files.find? (fun e => e.1 = path) =
        some (path, ⟨st.nextSha, code⟩) := by
      rw [hst1]
      dsimp only
      rw [List.find?_append, hfind]
      simp
    rw [hfind1]
    rw [hg]
    simp
  have hnames : st2.files.map (fun e => e.1) = st1.files.map (fun e => e.1) := by
    rw [hst2]
    dsimp only
    rw [List.map_map]
    refine List.map_congr_left ?_
    intro e _
    rw [hg]
    dsimp only [Function.comp]
    by_cases he : e.1 = path
    · rw [if_pos he]; exact he.symm
    · rw [if_neg he]
  rw [hsave1]
  dsimp only
  rw [hsave2]
  dsimp only
  exact ⟨rfl, rfl, hcheck2, rfl, hcount1, hcount2, by rw [hlook2]; rfl, hnames⟩

/-- C2 witness: a concrete double save of a LeetCode solution into an empty
store. -/
theorem c2_witness :
    (saveSolution ghFiles ⟨"o", "r"⟩ "leetcode" "two-sum" "print(1)" "python"
      ⟨[], 0⟩).1 = .ok () ∧
    (((saveSolution ghFiles ⟨"o", "r"⟩ "leetcode" "two-sum" "print(1)" "python"
      (saveSolution ghFiles ⟨"o", "r"⟩ "leetcode" "two-sum" "print(1)" "python"
        ⟨[], 0⟩).2).2).files.filter
      (fun e => e.1 = "leetcode/two-sum.py")).length = 1 := by
  have h := c2_save_idempotent ⟨"o", "r"⟩ "leetcode" "two-sum" "print(1)" "python"
    "leetcode/two-sum.py" ⟨[], 0⟩ rfl rfl
  exact ⟨h.1, h.2.2.2.2.2.1⟩

theorem handle_raw_code (t : TErr) :
    (handleGitHubError (.raw t)).code ∈ transportCodes := by
  unfold handleGitHubError transportCodes
  dsimp only
  split_ifs <;> simp

theorem checkFileExists_err {σ : Type} (okf : OctoFiles σ) (svc : Svc)
    (path : String) (s : σ) (j : JsErr)
    (h : (checkFileExists okf svc path s).1 = .error j) :
    ∃ e, j = .gh e ∧ e.code ∈ transportCodes := by
  unfold checkFileExists at h
  split at h
  · simp at h
  · rename_i t s2 heq
    split at h
    · simp at h
    · simp at h
      exact ⟨handleGitHubError (.raw t), h.symm, handle_raw_code t⟩

theorem createFile_err {σ : Type} (okf : OctoFiles σ) (svc : Svc)
    (path content message : String) (s : σ) (j : JsErr)
    (h : (createFile okf svc path content message s).1 = .error j) :
    ∃ e, j = .gh e ∧ e.code ∈ transportCodes := by
  unfold createFile at h
  split at h
  · simp at h
  · rename_i t s2 heq
    simp at h
    exact ⟨handleGitHubError (.raw t), h.symm, handle_raw_code t⟩

theorem updateFile_err {σ : Type} (okf : OctoFiles σ) (svc : Svc)
    (path content message : String) (s : σ) (j : JsErr)
    (h : (updateFile okf svc path content message s).1 = .error j) :
    ∃ e, j = .gh e ∧ e.code ∈ "INVALID_RESPONSE" :: transportCodes := by
  unfold updateFile at h
  split at h
  · rename_i t s2 heq
    simp at h
    exact ⟨handleGitHubError (.raw t), h.symm, by
      simp only [List.mem_cons]
      exact Or.inr (handle_raw_code t)⟩
  · simp at h
    exact ⟨⟨"Invalid file data received from GitHub", "INVALID_RESPONSE"⟩, h.symm, by simp⟩
  · rename_i sha s2 heq
    split at h
    · simp at h
    · rename_i t s3 heq2
      simp at h
      exact ⟨handleGitHubError (.raw t), h.symm, by
        simp only [List.mem_cons]
        exact Or.inr (handle_raw_code t)⟩

theorem getFilePath_err (platform problemId language : String) (e : GitHubError)
    (h : getFilePath platform problemId language = .error e) :
    e = ⟨"Unsupported platform: " ++ platform, "INVALID_PLATFORM"⟩ := by
  unfold getFilePath at h
  split_ifs at h
  simp at h
  exact h.symm

theorem saveSolution_err {σ : Type} (okf : OctoFiles σ) (svc : Svc)
    (platform problemId code language : String) (s : σ) (j : JsErr)
    (h : (saveSolution okf svc platform problemId code language s).1 = .error j) :
    ∃ e, j = .gh e ∧
      e.code ∈ "INVALID_PLATFORM" :: "INVALID_RESPONSE" :: transportCodes := by
  unfold saveSolution at h
  split at h
  · rename_i e heq
    simp at h
    refine ⟨e, h.symm, ?_⟩
    rw [getFilePath_err platform problemId language e heq]
    simp
  · rename_i path heq
    split at h
    · rename_i e s2 heq2
      simp at h
      obtain ⟨e', he', hc⟩ := checkFileExists_err okf svc path s e (by rw [heq2])
      refine ⟨e', by rw [← h, he'], by simp [List.mem_cons]; tauto⟩
    · rename_i fileExists s2 heq2
      split at h
      · dsimp only at h
        split at h
        · simp at h
        · rename_i e2 s3 heq3
          simp at h
          obtain ⟨e', he', hc⟩ := updateFile_err okf svc path code _ s2 e2 (by rw [heq3])
          subst he'
          refine ⟨e', by rw [← h]; rfl, ?_⟩
          simp only [List.mem_cons] at hc ⊢
          tauto
      · dsimp only at h
        split at h
        · simp at h
        · rename_i e2 s3 heq3
          simp at h
          obtain ⟨e', he', hc⟩ := createFile_err okf svc path code _ s2 e2 (by rw [heq3])
          subst he'
          refine ⟨e', by rw [← h]; rfl, ?_⟩
          simp only [List.mem_cons] at hc ⊢
          tauto

theorem verifyRepoAccess_err {σ : Type} (okr : OctoRepos σ) (svc : Svc)
    (s : σ) (j : JsErr)
    (h : (verifyRepoAccess okr svc s).1 = .error j) :
    ∃ e, j = .gh e ∧ e.code ∈ transportCodes := by
  unfold verifyRepoAccess at h
  split at h
  · simp at h
  · rename_i t s2 heq
    simp at h
    exact ⟨handleGitHubError (.raw t), h.symm, handle_raw_code t⟩

theorem createNewRepo_err {σ : Type} (okr : OctoRepos σ) (svc : Svc)
    (name : String) (s : σ) (j : JsErr)
    (h : (createNewRepo okr svc name s).1 = .error j) :
    ∃ e, j = .gh e ∧
      e.code ∈ "REPO_EXISTS" :: "REPO_CREATE_ERROR" :: transportCodes := by
  unfold createNewRepo at h
  split at h
  · rename_i t s2 heq
    split at h
    · simp at h
      exact ⟨_, h.symm, by simp⟩
    · simp at h
      refine ⟨handleGitHubError (.raw t), h.symm, ?_⟩
      simp only [List.mem_cons]
      exact Or.inr (Or.inr (handle_raw_code t))
  · rename_i data s2 heq
    split at h
    · simp at h
      refine ⟨⟨"Failed to create repository", "REPO_CREATE_ERROR"⟩, by rw [← h]; rfl, by simp⟩
    · rename_i login hlogin
      dsimp only at h
      split at h
      · simp at h
      · rename_i e s3 heq2
        simp at h
        obtain ⟨e', he', hc⟩ := verifyRepoAccess_err okr ⟨login, data.name⟩ s2 e (by rw [heq2])
        subst he'
        refine ⟨e', by rw [← h]; rfl, ?_⟩
        simp only [List.mem_cons] at hc ⊢
        tauto

theorem initFolderKeep_err {σ : Type} (okf : OctoFiles σ) (svc : Svc)
    (folder : String) (s : σ) (j : JsErr)
    (h : (initFolderKeep okf svc folder s).1 = .error j) :
    ∃ e, j = .gh e ∧ e.code ∈ transportCodes := by
  unfold initFolderKeep at h
  split at h
  · rename_i e s2 heq
    simp at h
    obtain ⟨e', he', hc⟩ := checkFileExists_err okf svc (folder ++ "/.gitkeep") s e (by rw [heq])
    exact ⟨e', by rw [← h]; exact he', hc⟩
  · simp at h
  · rename_i s2 heq
    exact createFile_err okf svc _ _ _ s2 j h

theorem initFoldersKeepList_err {σ : Type} (okf : OctoFiles σ) (svc : Svc) :
    ∀ (folders : List String) (s : σ) (j : JsErr),
      (initFoldersKeepList okf svc folders s).1 = .error j →
      ∃ e, j = .gh e ∧ e.code ∈ transportCodes := by
  intro folders
  induction folders with
  | nil => intro s j h; simp [initFoldersKeepList] at h
  | cons f rest ih =>
    intro s j h
    unfold initFoldersKeepList at h
    split at h
    · rename_i s2 heq
      exact ih s2 j h
    · rename_i e s2 heq
      simp at h
      obtain ⟨e', he', hc⟩ := initFolderKeep_err okf svc f s e (by rw [heq])
      exact ⟨e', by rw [← h]; exact he', hc⟩

theorem initializeFoldersKeep_err {σ : Type} (okf : OctoFiles σ) (svc : Svc)
    (s : σ) (j : JsErr)
    (h : (initializeFoldersKeep okf svc s).1 = .error j) :
    ∃ e, j = .gh e ∧ e.code ∈ transportCodes :=
  initFoldersKeepList_err okf svc _ s j h

theorem setupRepo_err {σ : Type} (okr : OctoRepos σ) (okf : OctoFiles σ)
    (svc : Svc) (repoName : String) (isNew : Bool) (s : σ) (j : JsErr)
    (h : (setupRepo okr okf svc repoName isNew s).1 = .error j) :
    ∃ e, j = .gh e ∧
      e.code ∈ "PERMISSION_ERROR" :: "REPO_EXISTS" :: "REPO_CREATE_ERROR" ::
        transportCodes := by
  unfold setupRepo at h
  split at h
  · split at h
    · rename_i e svc2 s2 heq
      simp at h
      obtain ⟨e', he', hc⟩ := createNewRepo_err okr svc repoName s e (by rw [heq])
      subst he'
      refine ⟨e', by rw [← h]; rfl, ?_⟩
      simp only [List.mem_cons] at hc ⊢
      tauto
    · rename_i svc2 s2 heq
      split at h
      · simp at h
      · rename_i e s3 heq2
        simp at h
        obtain ⟨e', he', hc⟩ := initializeFoldersKeep_err okf svc2 s2 e (by rw [heq2])
        subst he'
        refine ⟨e', by rw [← h]; rfl, ?_⟩
        simp only [List.mem_cons] at hc ⊢
        tauto
  · split at h
    · rename_i e s2 heq
      simp at h
      obtain ⟨e', he', hc⟩ := verifyRepoAccess_err okr svc s e (by rw [heq])
      subst he'
      refine ⟨e', by rw [← h]; rfl, ?_⟩
      simp only [List.mem_cons] at hc ⊢
      tauto
    · rename_i hasAccess s2 heq
      split at h
      · split at h
        · simp at h
        · rename_i e s3 heq2
          simp at h
          obtain ⟨e', he', hc⟩ := initializeFoldersKeep_err okf svc s2 e (by rw [heq2])
          subst he'
          refine ⟨e', by rw [← h]; rfl, ?_⟩
          simp only [List.mem_cons] at hc ⊢
          tauto
      · simp at h
        refine ⟨⟨"Insufficient permissions for repository", "PERMISSION_ERROR"⟩,
          by rw [← h]; rfl, by simp⟩

theorem initFolderReadme_err {σ : Type} (okf : OctoFiles σ) (svc : Svc)
    (name description : String) (s : σ) (j : JsErr)
    (h : (initFolderReadme okf svc name description s).1 = .error j) :
    ∃ e, j = .gh e ∧ e.code ∈ transportCodes := by
  unfold initFolderReadme at h
  split at h
  · rename_i e s2 heq
    simp at h
    obtain ⟨e', he', hc⟩ := checkFileExists_err okf svc (name ++ "/README.md") s e (by rw [heq])
    exact ⟨e', by rw [← h]; exact he', hc⟩
  · simp at h
  · rename_i s2 heq
    exact createFile_err okf svc _ _ _ s2 j h

theorem initFoldersReadmeList_err {σ : Type} (okf : OctoFiles σ) (svc : Svc) :
    ∀ (folders : List (String × String)) (s : σ) (j : JsErr),
      (initFoldersReadmeList okf svc folders s).1 = .error j →
      ∃ e, j = .gh e ∧ e.code ∈ transportCodes := by
  intro folders
  induction folders with
  | nil => intro s j h; simp [initFoldersReadmeList] at h
  | cons fd rest ih =>
    intro s j h
    unfold initFoldersReadmeList at h
    split at h
    · rename_i s2 heq
      exact ih s2 j h
    · rename_i e s2 heq
      simp at h
      obtain ⟨e', he', hc⟩ := initFolderReadme_err okf svc fd.1 fd.2 s e (by rw [heq])
      exact ⟨e', by rw [← h]; exact he', hc⟩

theorem initializeFoldersReadme_err {σ : Type} (okf : OctoFiles σ) (svc : Svc)
    (s : σ) (j : JsErr)
    (h : (initializeFoldersReadme okf svc s).1 = .error j) :
    ∃ e, j = .gh e ∧ e.code ∈ transportCodes := by
  unfold initializeFoldersReadme at h
  split at h
  · rename_i e s2 heq
    simp at h
    obtain ⟨e', he', hc⟩ := checkFileExists_err okf svc "README.md" s e (by rw [heq])
    subst he'
    refine ⟨e', by rw [← h]; rfl, hc⟩
  · rename_i s2 heq
    split at h
    · simp at h
    · rename_i e s3 heq2
      simp at h
      obtain ⟨e', he', hc⟩ := initFoldersReadmeList_err okf svc _ s2 e (by rw [heq2])
      subst he'
      refine ⟨e', by rw [← h]; rfl, hc⟩
  · rename_i s2 heq
    split at h
    · rename_i e s3 heq2
      simp at h
      obtain ⟨e', he', hc⟩ := createFile_err okf svc _ _ _ s2 e (by rw [heq2])
      subst he'
      refine ⟨e', by rw [← h]; rfl, hc⟩
    · rename_i s3 heq2
      split at h
      · simp at h
      · rename_i e s4 heq3
        simp at h
        obtain ⟨e', he', hc⟩ := initFoldersReadmeList_err okf svc _ s3 e (by rw [heq3])
        subst he'
        refine ⟨e', by rw [← h]; rfl, hc⟩

theorem adoptRepoAndInit_err {σ : Type} (okf : OctoFiles σ) (svc : Svc)
    (data : RepoData) (s : σ) (j : JsErr)
    (h : (adoptRepoAndInit okf svc data s).1 = .error j) :
    ∃ e, j = .gh e ∧ e.code ∈ "REPO_ACCESS_ERROR" :: transportCodes := by
  unfold adoptRepoAndInit at h
  split at h
  · simp at h
    exact ⟨_, h.symm, by simp⟩
  · rename_i login hlogin
    dsimp only at h
    split at h
    · simp at h
    · rename_i e s3 heq
      simp at h
      obtain ⟨e', he', hc⟩ := initializeFoldersReadme_err okf ⟨login, data.name⟩ s e (by rw [heq])
      subst he'
      refine ⟨e', by rw [← h]; rfl, ?_⟩
      simp only [List.mem_cons] at hc ⊢
      tauto

theorem createRepositoryWithStructure_err {σ : Type} (okr : OctoRepos σ)
    (okf : OctoFiles σ) (svc : Svc) (repoName : String)
    (description : Option String) (s : σ) (j : JsErr)
    (h : (createRepositoryWithStructure okr okf svc repoName description s).1 = .error j) :
    ∃ e, j = .gh e ∧ e.code ∈ "REPO_ACCESS_ERROR" :: transportCodes := by
  unfold createRepositoryWithStructure at h
  split at h
  · rename_i data s2 heq
    exact adoptRepoAndInit_err okf svc data s2 j h
  · rename_i t s2 heq
    split at h
    · split at h
      · rename_i data s3 heq2
        exact adoptRepoAndInit_err okf svc data s3 j h
      · simp at h
        exact ⟨_, h.symm, by simp⟩
    · simp at h
      refine ⟨handleGitHubError (.raw t), h.symm, ?_⟩
      simp only [List.mem_cons]
      exact Or.inr (handle_raw_code t)

/-- C9, counterexample: `saveSolution` on the `"unknown"` platform throws a
`GitHubError` whose code `INVALID_PLATFORM` lies outside the specification's
closed code set. -/
theorem c9_counterexample :
    (saveSolution ghFiles ⟨"o", "r"⟩ "unknown" "p" "c" "javascript" ⟨[], 0⟩).1 =
      .error (.gh ⟨"Unsupported platform: unknown", "INVALID_PLATFORM"⟩) ∧
    "INVALID_PLATFORM" ∉ specErrorCodes := by
  exact ⟨rfl, by decide⟩

/-- C9, amended: every error thrown by the public client operations
(`saveSolution`, `verifyAccess`, both repository-setup flows) is a
normalized `GitHubError` — never a raw transport error — whose code lies in
the specification's closed set extended with `INVALID_PLATFORM` and
`INVALID_RESPONSE`, for every transport oracle and state. -/
theorem c9_error_codes_amended :
    (∀ (σ : Type) (okf : OctoFiles σ) (svc : Svc)
      (platform problemId code language : String) (s : σ) (j : JsErr),
      (saveSolution okf svc platform problemId code language s).1 = .error j →
      ∃ e, j = .gh e ∧ e.code ∈ extendedErrorCodes) ∧
    (∀ (σ : Type) (okr : OctoRepos σ) (svc : Svc) (s : σ) (j : JsErr),
      (verifyRepoAccess okr svc s).1 = .error j →
      ∃ e, j = .gh e ∧ e.code ∈ extendedErrorCodes) ∧
    (∀ (σ : Type) (okr : OctoRepos σ) (okf : OctoFiles σ) (svc : Svc)
      (repoName : String) (isNew : Bool) (s : σ) (j : JsErr),
      (setupRepo okr okf svc repoName isNew s).1 = .error j →
      ∃ e, j = .gh e ∧ e.code ∈ extendedErrorCodes) ∧
    (∀ (σ : Type) (okr : OctoRepos σ) (okf : OctoFiles σ) (svc : Svc)
      (repoName : String) (description : Option String) (s : σ) (j : JsErr),
      (createRepositoryWithStructure okr okf svc repoName description s).1 =
        .error j →
      ∃ e, j = .gh e ∧ e.code ∈ extendedErrorCodes) := by
  have hsub : ∀ c : String,
      c ∈ "INVALID_PLATFORM" :: "INVALID_RESPONSE" :: "PERMISSION_ERROR" ::
        "REPO_EXISTS" :: "REPO_CREATE_ERROR" :: "REPO_ACCESS_ERROR" ::
          transportCodes →
      c ∈ extendedErrorCodes := by
    intro c hc
    simp only [transportCodes, List.mem_cons, List.not_mem_nil, or_false] at hc
    simp only [extendedErrorCodes, specErrorCodes, List.mem_append,
      List.mem_cons, List.not_mem_nil, or_false]
    tauto
  refine ⟨?_, ?_, ?_, ?_⟩
  · intro σ okf svc platform problemId code language s j h
    obtain ⟨e, he, hc⟩ := saveSolution_err okf svc platform problemId code language s j h
    refine ⟨e, he, hsub _ ?_⟩
    simp only [List.mem_cons] at hc ⊢
    tauto
  · intro σ okr svc s j h
    obtain ⟨e, he, hc⟩ := verifyRepoAccess_err okr svc s j h
    refine ⟨e, he, hsub _ ?_⟩
    simp only [List.mem_cons] at hc ⊢
    tauto
  · intro σ okr okf svc repoName isNew s j h
    obtain ⟨e, he, hc⟩ := setupRepo_err okr okf svc repoName isNew s j h
    refine ⟨e, he, hsub _ ?_⟩
    simp only [List.mem_cons] at hc ⊢
    tauto
  · intro σ okr okf svc repoName description s j h
    obtain ⟨e, he, hc⟩ := createRepositoryWithStructure_err okr okf svc repoName description s j h
    refine ⟨e, he, hsub _ ?_⟩
    simp only [List.mem_cons] at hc ⊢
    tauto

/-- C9 witness: the concrete `INVALID_PLATFORM` throw of `saveSolution` and
a concrete 401 transport failure of `verifyRepoAccess`, both landing in the
extended code set as normalized `GitHubError`s. -/
theorem c9_witness :
    (∃ e, (JsErr.gh ⟨"Unsupported platform: unknown", "INVALID_PLATFORM"⟩) = .gh e ∧
      e.code ∈ extendedErrorCodes) ∧
    (∃ e, (JsErr.gh ⟨"Bad credentials", "UNAUTHORIZED"⟩) = .gh e ∧
      e.code ∈ extendedErrorCodes) :=
  ⟨c9_error_codes_amended.1 Store ghFiles ⟨"o", "r"⟩ "unknown" "p" "c"
      "javascript" ⟨[], 0⟩ _ rfl,
    c9_error_codes_amended.2.1 Unit ghReposUnauthorized ⟨"o", "r"⟩ () _ rfl⟩

/-- C1: the mutation-observer callback of `initializeDetection` is
level-triggered, with no edge detection: on a page whose success marker is
present across three consecutive mutation batches with no state change, the
Observer extracts and forwards a record on every batch — three records, not
the single record the specification requires (the specification itself
flags this as a correctness-critical flaw to be rewritten). -/
theorem c1_level_triggered_forwards_three :
    isSuccessfulSubmission "leetcode" pageSuccessNoCode = true ∧
    (observerRun "leetcode"
      [pageSuccessNoCode, pageSuccessNoCode, pageSuccessNoCode] 5).length = 3 ∧
    observerRun "leetcode"
      [pageSuccessNoCode, pageSuccessNoCode, pageSuccessNoCode] 5 =
      [extractSubmissionData "leetcode" pageSuccessNoCode 5,
        extractSubmissionData "leetcode" pageSuccessNoCode 5,
        extractSubmissionData "leetcode" pageSuccessNoCode 5] := by
  exact ⟨rfl, rfl, rfl⟩

/-- C4, counterexample: a LeetCode page with the success marker, a problem
title and a language button but no code editor.  Every code strategy fails,
yet the Observer still forwards a record (with fallback problem id, fallback
code text and language `"unknown"`), refuting "the whole submission record
is aborted and the Observer forwards nothing"; and although the language
button was extractable (`"python3"`), the code failure aborted the language
extraction too, refuting "the failure of any one field's extraction never
aborts extraction of the other fields". -/
theorem c4_counterexample :
    extractLeetCodeCode pageSuccessNoCode = .error "No code content found" ∧
    isSuccessfulSubmission "leetcode" pageSuccessNoCode = true ∧
    observerRun "leetcode" [pageSuccessNoCode] 5 =
      [⟨"leetcode", "unknown-5", "// Code extraction failed", "unknown",
        none, none⟩] ∧
    extractLeetCodeLanguage pageSuccessNoCode = "python3" := by
  exact ⟨rfl, rfl, rfl, by decide⟩

/-- C4, amended: extraction errors are caught at the record level, not
per-field: when every strategy for the code field fails (the extractor
throws), the later fields are not extracted, the catch substitutes fallback
values (`unknown-<timestamp>` problem id, a placeholder code comment,
`unknown` language, no difficulty/title), and — whenever the success signal
holds — the Observer still forwards exactly this fallback record; nothing
is dropped. -/
theorem c4_extraction_amended (p : Page) (now : Nat) (m : String)
    (hcode : extractLeetCodeCode p = .error m) :
    extractSubmissionData "leetcode" p now =
      ⟨"leetcode", "unknown-" ++ toString now, "// Code extraction failed",
        "unknown", none, none⟩ ∧
    (isSuccessfulSubmission "leetcode" p = true →
      observerCallback "leetcode" p now =
        [⟨"leetcode", "unknown-" ++ toString now, "// Code extraction failed",
          "unknown", none, none⟩]) := by
  have hext : extractSubmissionData "leetcode" p now =
      ⟨"leetcode", "unknown-" ++ toString now, "// Code extraction failed",
        "unknown", none, none⟩ := by
    unfold extractSubmissionData attemptExtract
    rw [if_pos rfl]
    dsimp only
    rw [hcode]
  refine ⟨hext, fun hsig => ?_⟩
  unfold observerCallback
  rw [hsig]
  simp [hext]

/-- C4 witness: the amended behavior at the concrete code-less page. -/
theorem c4_witness :
    extractSubmissionData "leetcode" pageSuccessNoCode 5 =
      ⟨"leetcode", "unknown-5", "// Code extraction failed", "unknown",
        none, none⟩ ∧
    observerCallback "leetcode" pageSuccessNoCode 5 =
      [⟨"leetcode", "unknown-5", "// Code extraction failed", "unknown",
        none, none⟩] := by
  have h := c4_extraction_amended pageSuccessNoCode 5 "No code content found" rfl
  exact ⟨h.1, h.2 rfl⟩

end PushUp

